import Mathlib

/-!
Verification of the session/token lifecycle and cache-coherency core of the
fishfish-js client library.

This file is a shallow embedding of the TypeScript sources under `src/`:

* `src/utils.ts` — `assertString`, `validateResponse`, `transformData`;
* `src/structures/auth.ts` — `FishFishAuth.createSessionToken`, the
  `_processing` in-flight guard with its polling wait, the expiry timeout
  (`_createExpireTimeout`), `hasSessionToken`, `checkTokenPermissions`;
* `src/structures/api.ts` — the `FishFishApi` operations (get / getAll /
  insert / patch / delete for domains and urls), the `cache` accessor and
  the caching policy flags;
* `src/structures/webSocket.ts` — the reconnect backoff (`backOff`,
  `onClose`, `onOpen`) and the cache application of realtime events
  (`onData`).

Modelling conventions:

* JavaScript runtime values that may or may not be strings are `JSVal`;
  records are association lists `Rec` of field name to `JVal` (object
  spread `{...a, ...b}` is `recMerge`); `Date` objects are `JVal.date`
  carrying their millisecond value.
* `Map` objects are association lists keyed by `Option String`
  (`none` is the JavaScript `undefined` key), with `Map.get` / `Map.set` /
  `Map.delete` as `mapGet` / `mapSet` / `mapDelete`, preserving insertion
  order exactly as the JS `Map` does.
* Exceptions are `Except FFError`; HTTP and token-exchange traffic is
  recorded as a `List Ev` of emitted I/O events, and server responses are
  explicit inputs to each operation.
* Concurrency (two `createSessionToken` callers interleaving at the
  `await` suspension points) is a small-step machine `Conc.step` driven by
  a scheduler's action list; wall-clock time and the expiry `setTimeout`
  are the timed state `TAuth` with `advanceTo`.
-/

namespace FishFish

/-- Permissions for a session token (`enums.ts`, enum `Permission`). -/
inductive Perm where
  | admin | domains | urls
deriving DecidableEq, Repr

/-- Error values thrown by the library (`errors.ts`, `ErrorsMessages`,
plus the dynamic `Unexpected status code` error of `validateResponse`). -/
inductive FFError where
  | invalidTypeString (received : String)
  | missingFieldCreate
  | missingFieldUpdate
  | noSessionToken
  | apiKeyUnauthorized
  | sessionTokenUnauthorized
  | rateLimited
  | unexpectedStatus (code : Nat) (body : String)
  | cacheDisabled
  | noPermission
deriving DecidableEq, Repr

/-- A JavaScript value appearing in a record field: string, number,
or a `Date` object (carrying its millisecond timestamp). -/
inductive JVal where
  | s (v : String)
  | n (v : Nat)
  | date (ms : Nat)
deriving DecidableEq, Repr

/-- A JavaScript object as passed around by the library: an ordered
association list of field name to value (fields unique by construction). -/
abbrev Rec := List (String × JVal)

/-- Field lookup on a record (JS property read; `none` is `undefined`). -/
def recGet (r : Rec) (k : String) : Option JVal :=
  List.lookup k r

/-- Object spread `{...a, ...b}`: fields of `a` in order, values
overridden by `b` where present, then the fields of `b` not in `a`. -/
def recMerge (a b : Rec) : Rec :=
  (List.map (fun kv =>
      match recGet b kv.1 with
      | some v => (kv.1, v)
      | none => kv) a)
    ++ List.filter (fun kv => (recGet a kv.1).isNone) b

/-- A runtime argument that the TypeScript signature types as `string`
but that a JavaScript caller may pass as anything. -/
inductive JSVal where
  | str (v : String)
  | numArg (v : Nat)
  | undef
deriving DecidableEq, Repr

/-- The `typeof` string reported for a non-string `JSVal`. -/
def JSVal.typeName : JSVal → String
  | .str _ => "string"
  | .numArg _ => "number"
  | .undef => "undefined"

/-- Embedding of `utils.ts` `assertString`: returns the string or throws
`TypeError(INVALID_TYPE_STRING + typeof value)`. -/
def assertString (v : JSVal) : Except FFError String :=
  match v with
  | .str s => .ok s
  | other => .error (.invalidTypeString other.typeName)

/-- Embedding of `utils.ts` `validateResponse`: 401 maps to the session
token or API key unauthorized error depending on `hasSessionToken`,
429 to the rate-limit error, any other status outside 200–299 to
`unexpectedStatus` carrying the code and the body text. -/
def validateResponse (statusCode : Nat) (bodyText : String)
    (hasSessionToken : Bool) : Except FFError Unit :=
  if statusCode = 401 then
    .error (if hasSessionToken then .sessionTokenUnauthorized else .apiKeyUnauthorized)
  else if statusCode = 429 then
    .error .rateLimited
  else if statusCode < 200 ∨ statusCode > 299 then
    .error (.unexpectedStatus statusCode bodyText)
  else
    .ok ()

/-- The `added` / `checked` override computed by `utils.ts`
`transformData`: `data.added ? new Date(data.added) : new Date()`.
A number is truthy unless it is `0`; a `Date` object is truthy and
`new Date(dateObj)` copies its timestamp; an absent field yields the
current date `nowMs`.  (A string timestamp would be parsed by
`new Date`; the wire types declare these fields as numbers, and no
claim exercises that corner, so a string is treated as unparsed here
only in that it never occurs in any statement below.) -/
def dateOf (nowMs : Nat) (v : Option JVal) : JVal :=
  match v with
  | some (.n k) => if k = 0 then .date nowMs else .date k
  | some (.date d) => .date d
  | _ => .date nowMs

/-- Embedding of `utils.ts` `transformData`:
`{...data, added: data.added ? new Date(data.added) : new Date(),
checked: data.checked ? new Date(data.checked) : new Date()}`. -/
def transformData (nowMs : Nat) (r : Rec) : Rec :=
  recMerge r
    [("added", dateOf nowMs (recGet r "added")),
     ("checked", dateOf nowMs (recGet r "checked"))]

/-- A value stored in one of the two entity caches.  The caches are typed
`Map<string, FishFishDomain>` in TypeScript, but at runtime the bulk
`getAll` path can store the raw strings of a non-`full` listing, so a
cache value is either a record or a bare string. -/
inductive CVal where
  | recVal (r : Rec)
  | strVal (v : String)
deriving DecidableEq, Repr

/-- Object spread of a cache value: spreading a record gives its fields;
spreading a primitive string gives index-keyed one-character fields
(`{...'ab'} = {0:'a',1:'b'}`). -/
def cvalSpread : CVal → Rec
  | .recVal r => r
  | .strVal v =>
      (v.toList.enum).map (fun p => (toString p.1, JVal.s (String.mk [p.2])))

/-- Property read `x.f` on a cache value: `undefined` on a string
(no claim reads a named property of a string, but the bulk-cache bug
does exactly this to compute its key). -/
def cvalGet (c : CVal) (k : String) : Option JVal :=
  match c with
  | .recVal r => recGet r k
  | .strVal _ => none

/-- The key under which `getAll` caches an element: `domain.domain`
(resp. `url.url`).  On a record this is its identifier field if it is a
string; on a bare string of a non-`full` listing it is `undefined`. -/
def cvalKey (c : CVal) (field : String) : Option String :=
  match cvalGet c field with
  | some (.s v) => some v
  | _ => none

/-- An entity cache: a JS `Map` as an insertion-ordered association list.
The key type is `Option String` because `Map.set` is reached with the
`undefined` key by the bulk-cache path. -/
abbrev CacheMap := List (Option String × CVal)

/-- JS `Map.get`. -/
def mapGet (m : CacheMap) (k : Option String) : Option CVal :=
  List.lookup k m

/-- JS `Map.set`: updates an existing key in place (keeping insertion
order) or appends a new binding. -/
def mapSet : CacheMap → Option String → CVal → CacheMap
  | [], k, v => [(k, v)]
  | kv :: m, k, v => if kv.1 = k then (k, v) :: m else kv :: mapSet m k v

/-- JS `Map.delete`. -/
def mapDelete (m : CacheMap) (k : Option String) : CacheMap :=
  List.filter (fun kv => kv.1 ≠ k) m

/-- A session token as stored by `FishFishAuth` (`_sessionToken`):
the token string, the expiry as unix seconds, and the permissions the
creation request was issued with.  `_transformSessionToken` only changes
the representation of `expires` (seconds to `Date`), so the model keeps
one representation throughout. -/
structure SessionTok where
  token : String
  expires : Nat
  permissions : List Perm
deriving DecidableEq, Repr

/-- An API endpoint a request can be issued to, named by HTTP method and
path shape (`API_BASE_URL` prefix and query-string encoding elided). -/
inductive Endpoint where
  | domainsList (category : String) (full : Bool)
  | urlsList (category : String) (full : Bool)
  | domainGet (id : String)
  | domainPost (id : String)
  | domainPatch (id : String)
  | domainDelete (id : String)
  | urlGet (id : String)
  | urlPost (id : String)
  | urlPatch (id : String)
  | urlDelete (id : String)
deriving DecidableEq, Repr

/-- An I/O event emitted by an operation: the token-exchange request
(`POST /users/@me/tokens` with the permission list in its body) or a
request to an API endpoint. -/
inductive Ev where
  | tokenExchange (permissions : List Perm)
  | req (e : Endpoint)
deriving DecidableEq, Repr

/-- The token-exchange response as consumed by `createSessionToken`:
status code, body text (read on unexpected statuses), and the parsed
`{token, expires}` JSON fields of a 2xx body. -/
structure TokenResponse where
  status : Nat
  body : String
  token : String
  expires : Nat
deriving DecidableEq, Repr

/-- The state of a `FishFishAuth` instance, ignoring wall-clock time:
the default permissions fixed at construction and the held session
token.  (`apiKey` is carried only into request headers and `debug` only
into logging; neither affects any claim.) -/
structure AuthSt where
  defaultPerms : List Perm
  tok : Option SessionTok
deriving DecidableEq, Repr

/-- `FishFishAuth.hasSessionToken`: `Boolean(this._sessionToken)`. -/
def hasSessionToken (a : AuthSt) : Bool :=
  a.tok.isSome

/-- `FishFishAuth.checkTokenPermissions`:
`Boolean(this._sessionToken?.permissions.includes(permission))`. -/
def checkTokenPermissions (a : AuthSt) (p : Perm) : Bool :=
  match a.tok with
  | some t => t.permissions.contains p
  | none => false

/-- Sequential embedding of `FishFishAuth.createSessionToken` (the run
of one caller with its exchange response delivered at the `await`): if a
token is held it is returned unchanged with no request; otherwise the
exchange request is emitted, the response validated with
`validateResponse(response, this.hasSessionToken)` (the token slot is
empty at that point), and on success the token is stored with the
requested permissions.  Interleaving of several callers is the separate
machine `Conc.step`. -/
def createSessionTokenSeq (a : AuthSt) (perms : List Perm)
    (r : TokenResponse) : List Ev × Except FFError SessionTok × AuthSt :=
  match a.tok with
  | some t => ([], .ok t, a)
  | none =>
      let evs := [Ev.tokenExchange perms]
      match validateResponse r.status r.body (hasSessionToken a) with
      | .error e => (evs, .error e, a)
      | .ok _ =>
          let t : SessionTok := ⟨r.token, r.expires, perms⟩
          (evs, .ok t, { a with tok := some t })

/-- The configuration of a `FishFishApi` instance that the claims
depend on: the cache-enable flag and the do-not-cache-partial policy.
(`identity` only feeds a request header, `debug` only logging, and
`webSocket` only spawns the feed; none affects any statement below.) -/
structure ApiOptions where
  cache : Bool
  doNotCachePartial : Bool
deriving DecidableEq, Repr

/-- The state of a `FishFishApi` instance: its options, its
`FishFishAuth`, and the two entity caches of `_cache`. -/
structure ApiState where
  options : ApiOptions
  auth : AuthSt
  domains : CacheMap
  urls : CacheMap
deriving DecidableEq, Repr

/-- A response to a single-entity request: status, body text, and the
parsed JSON record of a 2xx body. -/
structure RecResponse where
  status : Nat
  body : String
  record : Rec
deriving DecidableEq, Repr

/-- A response to a bulk listing request: status, body text, and the
parsed JSON array (records when `full`, bare identifier strings when
not). -/
structure ListResponse where
  status : Nat
  body : String
  items : List CVal
deriving DecidableEq, Repr

/-- A response whose body is never parsed (delete requests). -/
structure HttpResp where
  status : Nat
  body : String
deriving DecidableEq, Repr

/-- The `cache` accessor of `FishFishApi`: throws `CACHE_DISABLED` when
the instance was constructed with `cache: false`. -/
def cacheAccessor (s : ApiState) : Except FFError (CacheMap × CacheMap) :=
  if s.options.cache then .ok (s.domains, s.urls) else .error .cacheDisabled

/-- Embedding of `FishFishApi._assertToken`: acquires a token through
`createSessionToken()` (with the auth's default permissions) and, when a
permission is demanded, fails with `SESSION_TOKEN_NO_PERMISSION` if the
resulting token does not include it. -/
def assertTokenStep (s : ApiState) (tokResp : TokenResponse)
    (permission : Option Perm) : List Ev × Except FFError ApiState :=
  let (evs, res, a2) := createSessionTokenSeq s.auth s.auth.defaultPerms tokResp
  match res with
  | .error e => (evs, .error e)
  | .ok _ =>
      let s2 := { s with auth := a2 }
      match permission with
      | some p =>
          if checkTokenPermissions a2 p then (evs, .ok s2)
          else (evs, .error .noPermission)
      | none => (evs, .ok s2)

/-- Embedding of the private `FishFishApi.getSessionToken`:
`(await this.auth.createSessionToken()).token`, used to build the
`Authorization` header of each request (performing the exchange right
there when no token is held yet). -/
def getSessionTokenOp (s : ApiState) (tokResp : TokenResponse) :
    List Ev × Except FFError String × ApiState :=
  let (evs, res, a2) := createSessionTokenSeq s.auth s.auth.defaultPerms tokResp
  match res with
  | .error e => (evs, .error e, { s with auth := a2 })
  | .ok t => (evs, .ok t.token, { s with auth := a2 })

/-- Embedding of the static `FishFishApi.getDomain` (resp. `getUrl` via
the `domainKind` flag): assert the identifier is a string, issue the
unauthenticated GET, validate with no session token in play, and return
the raw JSON body (the static readers do not apply `transformData`). -/
def staticGetEntity (domainKind : Bool) (id : JSVal) (resp : RecResponse) :
    List Ev × Except FFError Rec :=
  match assertString id with
  | .error e => ([], .error e)
  | .ok d =>
      let ep := if domainKind then Endpoint.domainGet d else Endpoint.urlGet d
      match validateResponse resp.status resp.body false with
      | .error e => ([Ev.req ep], .error e)
      | .ok _ => ([Ev.req ep], .ok resp.record)

/-- Options of the single-entity instance readers (`GetOptions`):
`cache` defaults to `true`, `force` — despite its documented default of
`false` — defaults to `true` in the code (`options?.force ?? true`). -/
structure GetOpts where
  cache : Option Bool
  force : Option Bool
deriving DecidableEq, Repr

/-- Embedding of the instance `FishFishApi.getDomain` / `getURL`
(selected by `domainKind`): assert the identifier, read the cache
through the throwing `cache` accessor, return the cached entry when one
exists and `force` is false, otherwise fetch through the static reader
and write through when both cache flags allow. -/
def getEntity (domainKind : Bool) (s : ApiState) (id : JSVal)
    (opts : GetOpts) (resp : RecResponse) :
    List Ev × Except FFError CVal × ApiState :=
  match assertString id with
  | .error e => ([], .error e, s)
  | .ok d =>
      match cacheAccessor s with
      | .error e => ([], .error e, s)
      | .ok (dm, um) =>
          let cached := mapGet (if domainKind then dm else um) (some d)
          let force := opts.force.getD true
          let useCache := opts.cache.getD true
          match cached, force with
          | some c, false => ([], .ok c, s)
          | _, _ =>
              let (evs, rres) := staticGetEntity domainKind (.str d) resp
              match rres with
              | .error e => (evs, .error e, s)
              | .ok rc =>
                  let s2 :=
                    if s.options.cache && useCache then
                      if domainKind then
                        { s with domains := mapSet s.domains (some d) (.recVal rc) }
                      else
                        { s with urls := mapSet s.urls (some d) (.recVal rc) }
                    else s
                  (evs, .ok (.recVal rc), s2)

/-- Embedding of `FishFishApi.insertDomain` / `insertURL` (selected by
`domainKind`).  Order is exactly the source's: `_assertToken` with the
entity permission first (acquiring a token — and performing the
exchange — before anything else), then `assertString` on the
identifier, then the `Reflect.has` check of the `category` and
`description` fields of `data ?? {}`, then the POST, validation, the
`transformData` of the body, and the unconditional cache write when
caching is enabled. -/
def insertEntity (domainKind : Bool) (nowMs : Nat) (s : ApiState)
    (tokResp : TokenResponse) (id : JSVal) (data : Option Rec)
    (resp : RecResponse) : List Ev × Except FFError Rec × ApiState :=
  match assertTokenStep s tokResp (some (if domainKind then .domains else .urls)) with
  | (evs, .error e) => (evs, .error e, s)
  | (evs, .ok s1) =>
      match assertString id with
      | .error e => (evs, .error e, s1)
      | .ok d =>
          let dd := data.getD []
          if (recGet dd "category").isNone || (recGet dd "description").isNone then
            (evs, .error .missingFieldCreate, s1)
          else
            let (evs2, rtok, s2) := getSessionTokenOp s1 tokResp
            match rtok with
            | .error e => (evs ++ evs2, .error e, s2)
            | .ok _ =>
                let ep := if domainKind then Endpoint.domainPost d else Endpoint.urlPost d
                let evs3 := evs ++ evs2 ++ [Ev.req ep]
                match validateResponse resp.status resp.body (hasSessionToken s2.auth) with
                | .error e => (evs3, .error e, s2)
                | .ok _ =>
                    let inserted := transformData nowMs resp.record
                    let s3 :=
                      if s2.options.cache then
                        if domainKind then
                          { s2 with domains := mapSet s2.domains (some d) (.recVal inserted) }
                        else
                          { s2 with urls := mapSet s2.urls (some d) (.recVal inserted) }
                      else s2
                    (evs3, .ok inserted, s3)

/-- Embedding of `FishFishApi.patchDomain` / `patchURL`: `_assertToken`
with the entity permission, `assertString`, the `Object.keys(data)`
non-emptiness check, then the PATCH, validation, `transformData`, and
the unconditional cache write when caching is enabled. -/
def patchEntity (domainKind : Bool) (nowMs : Nat) (s : ApiState)
    (tokResp : TokenResponse) (id : JSVal) (data : Rec)
    (resp : RecResponse) : List Ev × Except FFError Rec × ApiState :=
  match assertTokenStep s tokResp (some (if domainKind then .domains else .urls)) with
  | (evs, .error e) => (evs, .error e, s)
  | (evs, .ok s1) =>
      match assertString id with
      | .error e => (evs, .error e, s1)
      | .ok d =>
          if data.length = 0 then
            (evs, .error .missingFieldUpdate, s1)
          else
            let (evs2, rtok, s2) := getSessionTokenOp s1 tokResp
            match rtok with
            | .error e => (evs ++ evs2, .error e, s2)
            | .ok _ =>
                let ep := if domainKind then Endpoint.domainPatch d else Endpoint.urlPatch d
                let evs3 := evs ++ evs2 ++ [Ev.req ep]
                match validateResponse resp.status resp.body (hasSessionToken s2.auth) with
                | .error e => (evs3, .error e, s2)
                | .ok _ =>
                    let patched := transformData nowMs resp.record
                    let s3 :=
                      if s2.options.cache then
                        if domainKind then
                          { s2 with domains := mapSet s2.domains (some d) (.recVal patched) }
                        else
                          { s2 with urls := mapSet s2.urls (some d) (.recVal patched) }
                      else s2
                    (evs3, .ok patched, s3)

/-- Embedding of `FishFishApi.deleteDomain` / `deleteURL`:
`_assertToken` with the entity permission, `assertString`, the DELETE,
validation, and the unconditional cache removal when caching is
enabled; returns `true`. -/
def deleteEntity (domainKind : Bool) (s : ApiState)
    (tokResp : TokenResponse) (id : JSVal) (resp : HttpResp) :
    List Ev × Except FFError Bool × ApiState :=
  match assertTokenStep s tokResp (some (if domainKind then .domains else .urls)) with
  | (evs, .error e) => (evs, .error e, s)
  | (evs, .ok s1) =>
      match assertString id with
      | .error e => (evs, .error e, s1)
      | .ok d =>
          let (evs2, rtok, s2) := getSessionTokenOp s1 tokResp
          match rtok with
          | .error e => (evs ++ evs2, .error e, s2)
          | .ok _ =>
              let ep := if domainKind then Endpoint.domainDelete d else Endpoint.urlDelete d
              let evs3 := evs ++ evs2 ++ [Ev.req ep]
              match validateResponse resp.status resp.body (hasSessionToken s2.auth) with
              | .error e => (evs3, .error e, s2)
              | .ok _ =>
                  let s3 :=
                    if s2.options.cache then
                      if domainKind then
                        { s2 with domains := mapDelete s2.domains (some d) }
                      else
                        { s2 with urls := mapDelete s2.urls (some d) }
                    else s2
                  (evs3, .ok true, s3)

/-- Options of the bulk listings (`GetAllOptions`): `cache` defaults to
`true`, `full` to `false`, `category` to phishing, via the object-spread
merge `{cache: true, full: false, category: Category.Phishing,
...options}`. -/
structure GetAllOpts where
  cache : Option Bool
  category : Option String
  full : Option Bool
deriving DecidableEq, Repr

/-- Embedding of the instance `FishFishApi.getAllDomains` /
`getAllUrls` (selected by `domainKind`): when `full` is requested,
`_assertToken()` first (no permission argument); the `Authorization`
header is built with `getSessionToken()` (which performs the exchange
when no token is held, even for a non-`full` listing); after
validation, each returned element is written to the cache — keyed by
its `domain` (resp. `url`) property — exactly when
`this._options.cache && options.cache && (full || !doNotCachePartial)`.
A non-`full` listing returns bare strings, whose `domain` property is
`undefined`. -/
def getAllEntities (domainKind : Bool) (s : ApiState) (opts : GetAllOpts)
    (tokResp : TokenResponse) (resp : ListResponse) :
    List Ev × Except FFError (List CVal) × ApiState :=
  let full := opts.full.getD false
  let cacheOpt := opts.cache.getD true
  let category := opts.category.getD "phishing"
  let step1 : List Ev × Except FFError ApiState :=
    if full then assertTokenStep s tokResp none else ([], .ok s)
  match step1 with
  | (evs1, .error e) => (evs1, .error e, s)
  | (evs1, .ok s1) =>
      let (evs2, rtok, s2) := getSessionTokenOp s1 tokResp
      match rtok with
      | .error e => (evs1 ++ evs2, .error e, s2)
      | .ok _ =>
          let ep := if domainKind then Endpoint.domainsList category full
                    else Endpoint.urlsList category full
          let evs := evs1 ++ evs2 ++ [Ev.req ep]
          match validateResponse resp.status resp.body (hasSessionToken s2.auth) with
          | .error e => (evs, .error e, s2)
          | .ok _ =>
              let keyField := if domainKind then "domain" else "url"
              let s3 :=
                if s2.options.cache && cacheOpt && (full || !s2.options.doNotCachePartial) then
                  if domainKind then
                    { s2 with domains :=
                        resp.items.foldl (fun m it => mapSet m (cvalKey it keyField) it) s2.domains }
                  else
                    { s2 with urls :=
                        resp.items.foldl (fun m it => mapSet m (cvalKey it keyField) it) s2.urls }
                else s2
              (evs, .ok resp.items, s3)

/-- The value of `Math.floor(Math.exp(tries))` for the attempt counts
the backoff can distinguish: exact floors of `e^n` for `n ≤ 6`, and a
uniform `1096 = ⌊e^7⌋` beyond — extensionally equal under the
`min (,) 600` cap of `backOff`, since `e^n ≥ e^7 > 600` for every
`n ≥ 7`.  The bridging lemma `expFloorTable_spec` below proves this
table against the real exponential. -/
def expFloorTable : Nat → Nat
  | 0 => 1
  | 1 => 2
  | 2 => 7
  | 3 => 20
  | 4 => 54
  | 5 => 148
  | 6 => 403
  | _ => 1096

/-- Embedding of `FishFishWebSocket.backOff`:
`Math.min(Math.floor(Math.exp(this.tries)), 10 * 60) * 1_000`
(milliseconds). -/
def backOffMs (tries : Nat) : Nat :=
  min (expFloorTable tries) (10 * 60) * 1000

/-- Embedding of `FishFishWebSocket.onClose`, which touches only the
backoff state.  It computes `const backOff = this.backOff()` (the value
written to the debug log and to the `close` event payload as
`attemptReconnectAfterMilliseconds`), then increments `this.tries`, and
then arms `setTimeout(() => this.connect(), this.backOff())` — calling
`backOff` a second time, after the increment.  The triple returned is
(announced delay, new tries counter, delay actually given to
`setTimeout`). -/
def onCloseModel (tries : Nat) : Nat × Nat × Nat :=
  let backOff := backOffMs tries
  let tries2 := tries + 1
  (backOff, tries2, backOffMs tries2)

/-- Embedding of `FishFishWebSocket.onOpen` on the backoff state:
`this.tries = 0`. -/
def onOpenModel (_tries : Nat) : Nat :=
  0

/-- Identifier-field read used by `onData` (`data.domain!` /
`data.url!`): the `Map` key is the field's string value, or the
`undefined` key when the field is absent.  (A non-string identifier
would become a non-string `Map` key; events carry string identifiers
and no claim exercises that corner.) -/
def recKeyStr (r : Rec) (field : String) : Option String :=
  match recGet r field with
  | some (.s v) => some v
  | _ => none

/-- Embedding of `FishFishWebSocket.onData` (the `data`-event listener
bound when a manager is attached).  It applies `transformData` to the
incoming `rawData.data` and dispatches on `rawData.type`:
`*_create` stores the record under its identifier, `*_delete` removes
the entry, `*_update` merges `{...existing ?? {}, ...data}` and stores
the result, and an unknown type is logged and ignored.  Every cache
touch goes through the manager's throwing `cache` accessor. -/
def onData (nowMs : Nat) (s : ApiState) (ty : String) (data0 : Rec) :
    Except FFError ApiState :=
  let data := transformData nowMs data0
  if ty = "domain_create" then
    match cacheAccessor s with
    | .error e => .error e
    | .ok (dm, _) =>
        .ok { s with domains := mapSet dm (recKeyStr data "domain") (.recVal data) }
  else if ty = "domain_delete" then
    match cacheAccessor s with
    | .error e => .error e
    | .ok (dm, _) =>
        .ok { s with domains := mapDelete dm (recKeyStr data "domain") }
  else if ty = "domain_update" then
    match cacheAccessor s with
    | .error e => .error e
    | .ok (dm, _) =>
        let key := recKeyStr data "domain"
        let base := (mapGet dm key).getD (.recVal [])
        .ok { s with domains := mapSet dm key (.recVal (recMerge (cvalSpread base) data)) }
  else if ty = "url_create" then
    match cacheAccessor s with
    | .error e => .error e
    | .ok (_, um) =>
        .ok { s with urls := mapSet um (recKeyStr data "url") (.recVal data) }
  else if ty = "url_delete" then
    match cacheAccessor s with
    | .error e => .error e
    | .ok (_, um) =>
        .ok { s with urls := mapDelete um (recKeyStr data "url") }
  else if ty = "url_update" then
    match cacheAccessor s with
    | .error e => .error e
    | .ok (_, um) =>
        let key := recKeyStr data "url"
        let base := (mapGet um key).getD (.recVal [])
        .ok { s with urls := mapSet um key (.recVal (recMerge (cvalSpread base) data)) }
  else
    .ok s

/-- One realtime message through the manager path: `onMessage` parses
the frame, applies `transformData` to its `data`, and emits the
`{type, data}` payload; the `data` listener `onData` then processes it
(applying `transformData` a second time — idempotent on the date
fields it rewrites). -/
def handleMessage (nowMsgMs nowDataMs : Nat) (s : ApiState) (ty : String)
    (raw : Rec) : Except FFError ApiState :=
  onData nowDataMs s ty (transformData nowMsgMs raw)

namespace Conc

/-- The two concurrent callers of `createSessionToken`. -/
inductive Caller where
  | A | B
deriving DecidableEq, Repr

/-- Where one caller's `createSessionToken` invocation stands:
not yet started; suspended on its own exchange request (`await
request(...)`); parked in the `setInterval` polling wait of the
`_processing` branch; resolved with a token; or rejected with the
error thrown out of the `try` block. -/
inductive CStatus where
  | idle
  | waiting
  | polling
  | resolvedWith (t : SessionTok)
  | rejected (e : FFError)
deriving DecidableEq, Repr

/-- The shared state of one `FishFishAuth` instance together with the
progress of two concurrent `createSessionToken` callers:
`_sessionToken`, the `_processing` flag, the number of exchange
requests issued so far, the permissions the in-flight request was
issued with, and each caller's status. -/
structure Config where
  tok : Option SessionTok
  processing : Bool
  reqCount : Nat
  inflightPerms : List Perm
  a : CStatus
  b : CStatus
deriving DecidableEq, Repr

/-- The status of the given caller. -/
def statusOf (c : Config) : Caller → CStatus
  | .A => c.a
  | .B => c.b

/-- Replace the status of the given caller. -/
def setStatus (c : Config) : Caller → CStatus → Config
  | .A, st => { c with a := st }
  | .B, st => { c with b := st }

/-- A scheduler action: a caller runs the synchronous prefix of
`createSessionToken` up to its first suspension; the transport delivers
the response of the in-flight exchange; or a parked caller's
10-millisecond `setInterval` tick fires. -/
inductive Act where
  | start (who : Caller) (perms : List Perm)
  | deliver (r : TokenResponse)
  | poll (who : Caller)
deriving DecidableEq, Repr

/-- The caller whose exchange request is in flight, if any. -/
def findWaiting (c : Config) : Option Caller :=
  if c.a = .waiting then some .A
  else if c.b = .waiting then some .B
  else none

/-- One atomic step of the interleaving.  `start` runs
`createSessionToken`'s synchronous prefix: return the held token at
once; else park in the polling wait when `_processing` is set; else set
`_processing`, issue the exchange request and suspend.  `deliver`
resumes the suspended caller: `validateResponse` (the token slot is
still empty, so `hasSessionToken` is false), then on success store the
token (with the permissions of the request) and resolve, on failure
reject — either way the `finally` clears `_processing`.  `poll` is one
`setInterval` tick: it resolves its caller with the current token if
one has appeared, and does nothing otherwise (in particular it never
rejects). -/
def step (c : Config) : Act → Config
  | .start who perms =>
      match statusOf c who with
      | .idle =>
          match c.tok with
          | some t => setStatus c who (.resolvedWith t)
          | none =>
              if c.processing then
                setStatus c who .polling
              else
                { setStatus c who .waiting with
                    processing := true
                    reqCount := c.reqCount + 1
                    inflightPerms := perms }
      | _ => c
  | .deliver r =>
      match findWaiting c with
      | none => c
      | some who =>
          match validateResponse r.status r.body c.tok.isSome with
          | .error e => { setStatus c who (.rejected e) with processing := false }
          | .ok _ =>
              let t : SessionTok := ⟨r.token, r.expires, c.inflightPerms⟩
              { setStatus c who (.resolvedWith t) with
                  tok := some t
                  processing := false }
  | .poll who =>
      match statusOf c who, c.tok with
      | .polling, some t => setStatus c who (.resolvedWith t)
      | _, _ => c

/-- Run a whole schedule. -/
def run (l : List Act) (c : Config) : Config :=
  l.foldl step c

/-- The configuration before anything happens: no token, `_processing`
clear, no request issued, both callers yet to invoke. -/
def init : Config :=
  ⟨none, false, 0, [], .idle, .idle⟩

/-- The configuration after exactly one caller (`who`) has invoked
`createSessionToken` on the fresh instance: it set `_processing`,
issued the one exchange request (with permissions `p`) and suspended. -/
def oneStarted (who : Caller) (p : List Perm) : Config :=
  match who with
  | .A => ⟨none, true, 1, p, .waiting, .idle⟩
  | .B => ⟨none, true, 1, p, .idle, .waiting⟩

/-- The configuration after both callers have invoked and no response
has arrived: `who` owns the in-flight request, the other caller is
parked in the polling wait. -/
def bothStarted (who : Caller) (p : List Perm) : Config :=
  match who with
  | .A => ⟨none, true, 1, p, .waiting, .polling⟩
  | .B => ⟨none, true, 1, p, .polling, .waiting⟩

/-- The configuration right after a successful response resolved the
request owner `who` with token `t`; the other caller is still parked. -/
def resolvedCfg (who : Caller) (p : List Perm) (t : SessionTok) : Config :=
  match who with
  | .A => ⟨some t, false, 1, p, .resolvedWith t, .polling⟩
  | .B => ⟨some t, false, 1, p, .polling, .resolvedWith t⟩

/-- The configuration right after a failing response rejected the
request owner `who` with error `e`; the other caller is still parked —
and, the token never appearing, will stay parked forever. -/
def rejectedCfg (who : Caller) (p : List Perm) (e : FFError) : Config :=
  match who with
  | .A => ⟨none, false, 1, p, .rejected e, .polling⟩
  | .B => ⟨none, false, 1, p, .polling, .rejected e⟩

/-- Whether an action is the given caller's invocation. -/
def Act.isStartOf (who : Caller) : Act → Bool
  | .start w _ => w = who
  | _ => false

/-- Whether an action is a response delivery. -/
def Act.isDeliver : Act → Bool
  | .deliver _ => true
  | _ => false

/-- Whether an action is a polling tick of the given caller. -/
def Act.isPollOf (who : Caller) : Act → Bool
  | .poll w => w = who
  | _ => false

/-- A caller status compatible with the settled-success phase for token
`t`: still parked, or resolved with exactly `t`. -/
def OkSt (t : SessionTok) (st : CStatus) : Prop :=
  st = .polling ∨ st = .resolvedWith t

/-- Invariant of the phase after the one exchange succeeded with token
`t`: the token is stored, exactly one request was ever issued, and each
caller is parked or resolved with that same token. -/
def Inv (t : SessionTok) (c : Config) : Prop :=
  c.tok = some t ∧ c.processing = false ∧ c.reqCount = 1 ∧ OkSt t c.a ∧ OkSt t c.b

end Conc

/-- The timed state of one `FishFishAuth` instance: the auth state, the
absolute millisecond time at which the armed `_createExpireTimeout`
timer will fire (if armed), and the current wall-clock time in
milliseconds. -/
structure TAuth where
  auth : AuthSt
  timerAt : Option Nat
  nowMs : Nat
deriving DecidableEq, Repr

/-- Timed embedding of `createSessionToken` for a single caller:
`createSessionTokenSeq`, plus — exactly when a fresh token was created —
`_createExpireTimeout`, which arms
`setTimeout(() => { this._sessionToken = null }, expires * 1_000 -
Date.now())` (a non-positive delay fires as soon as possible, hence the
`max` with the current time). -/
def createSessionTokenT (s : TAuth) (perms : List Perm)
    (r : TokenResponse) : List Ev × Except FFError SessionTok × TAuth :=
  let (evs, res, a2) := createSessionTokenSeq s.auth perms r
  match s.auth.tok with
  | some _ => (evs, res, { s with auth := a2 })
  | none =>
      match res with
      | .ok t =>
          (evs, .ok t,
            { auth := a2
              timerAt := some (max (t.expires * 1000) s.nowMs)
              nowMs := s.nowMs })
      | .error e => (evs, .error e, { s with auth := a2 })

/-- Advance wall-clock time to `t` (with `nowMs ≤ t`), firing the
expiry timer if its due time has been reached: the timer callback sets
`this._sessionToken = null` unconditionally. -/
def advanceTo (s : TAuth) (t : Nat) : TAuth :=
  match s.timerAt with
  | some d =>
      if d ≤ t then
        { auth := { s.auth with tok := none }, timerAt := none, nowMs := t }
      else
        { s with nowMs := t }
  | none => { s with nowMs := t }

/-- `hasSessionToken` on the timed state. -/
def hasSessionTokenT (s : TAuth) : Bool :=
  hasSessionToken s.auth

namespace Conc

theorem run_nil (c : Config) : run [] c = c := rfl

theorem run_cons (x : Act) (l : List Act) (c : Config) :
    run (x :: l) c = run l (step c x) := rfl

theorem run_append (l₁ l₂ : List Act) (c : Config) :
    run (l₁ ++ l₂) c = run l₂ (run l₁ c) := by
  simp [run, List.foldl_append]

theorem step_init_start (w : Caller) (p : List Perm) :
    step init (.start w p) = oneStarted w p := by
  cases w <;> rfl

theorem step_init_poll (w : Caller) : step init (.poll w) = init := by
  cases w <;> rfl

theorem step_one_start_same (w : Caller) (p q : List Perm) :
    step (oneStarted w p) (.start w q) = oneStarted w p := by
  cases w <;> rfl

theorem step_oneA_startB (p q : List Perm) :
    step (oneStarted .A p) (.start .B q) = bothStarted .A p := rfl

theorem step_oneB_startA (p q : List Perm) :
    step (oneStarted .B p) (.start .A q) = bothStarted .B p := rfl

theorem step_one_poll (w v : Caller) (p : List Perm) :
    step (oneStarted w p) (.poll v) = oneStarted w p := by
  cases w <;> cases v <;> rfl

theorem step_both_start (w v : Caller) (p q : List Perm) :
    step (bothStarted w p) (.start v q) = bothStarted w p := by
  cases w <;> cases v <;> rfl

theorem step_both_poll (w v : Caller) (p : List Perm) :
    step (bothStarted w p) (.poll v) = bothStarted w p := by
  cases w <;> cases v <;> rfl

/-- Any deliver-free schedule from the fresh instance leaves it in one
of three shapes — untouched, one caller in flight, or one in flight and
the other parked — according to which callers have invoked.  In every
shape the request count equals the number of callers that went in
flight: at most one. -/
theorem phase1 (l : List Act) (h : l.all (fun x => !x.isDeliver) = true) :
    (run l init = init
       ∧ l.any (Act.isStartOf .A) = false ∧ l.any (Act.isStartOf .B) = false)
    ∨ (∃ p, run l init = oneStarted .A p
       ∧ l.any (Act.isStartOf .A) = true ∧ l.any (Act.isStartOf .B) = false)
    ∨ (∃ p, run l init = oneStarted .B p
       ∧ l.any (Act.isStartOf .A) = false ∧ l.any (Act.isStartOf .B) = true)
    ∨ (∃ w p, run l init = bothStarted w p
       ∧ l.any (Act.isStartOf .A) = true ∧ l.any (Act.isStartOf .B) = true) := by
  induction l using List.reverseRecOn with
  | nil =>
      exact Or.inl ⟨rfl, rfl, rfl⟩
  | append_singleton xs x ih =>
      simp only [List.all_append, List.all_cons, List.all_nil, Bool.and_true,
        Bool.and_eq_true, Bool.not_eq_true'] at h
      obtain ⟨hxs, hx⟩ := h
      rw [run_append, run_cons, run_nil]
      simp only [List.any_append, List.any_cons, List.any_nil, Bool.or_false]
      rcases ih hxs with ⟨hc, hA, hB⟩ | ⟨p, hc, hA, hB⟩ | ⟨p, hc, hA, hB⟩
        | ⟨w, p, hc, hA, hB⟩ <;> rw [hc, hA, hB] <;> cases x with
      | start who perms =>
          first
          | (cases who
             · exact Or.inr (Or.inl ⟨perms, step_init_start .A perms, rfl, rfl⟩)
             · exact Or.inr (Or.inr (Or.inl ⟨perms, step_init_start .B perms, rfl, rfl⟩)))
          | (cases who
             · exact Or.inr (Or.inl ⟨p, step_one_start_same .A p perms, rfl, rfl⟩)
             · exact Or.inr (Or.inr (Or.inr ⟨.A, p, step_oneA_startB p perms, rfl, rfl⟩)))
          | (cases who
             · exact Or.inr (Or.inr (Or.inr ⟨.B, p, step_oneB_startA p perms, rfl, rfl⟩))
             · exact Or.inr (Or.inr (Or.inl ⟨p, step_one_start_same .B p perms, rfl, rfl⟩)))
          | (cases who
             · exact Or.inr (Or.inr (Or.inr ⟨w, p, step_both_start w .A p perms, by simp, by simp⟩))
             · exact Or.inr (Or.inr (Or.inr ⟨w, p, step_both_start w .B p perms, by simp, by simp⟩)))
      | deliver r =>
          simp [Act.isDeliver] at hx
      | poll who =>
          first
          | exact Or.inl ⟨step_init_poll who, rfl, rfl⟩
          | exact Or.inr (Or.inl ⟨p, step_one_poll .A who p, rfl, rfl⟩)
          | exact Or.inr (Or.inr (Or.inl ⟨p, step_one_poll .B who p, rfl, rfl⟩))
          | exact Or.inr (Or.inr (Or.inr ⟨w, p, step_both_poll w who p, rfl, rfl⟩))

theorem step_both_deliver_ok (w : Caller) (p : List Perm) (r : TokenResponse)
    (hok : validateResponse r.status r.body false = .ok ()) :
    step (bothStarted w p) (.deliver r) = resolvedCfg w p ⟨r.token, r.expires, p⟩ := by
  cases w <;>
    simp [step, bothStarted, findWaiting, resolvedCfg, setStatus, hok]

theorem step_both_deliver_error (w : Caller) (p : List Perm) (r : TokenResponse)
    (e : FFError) (herr : validateResponse r.status r.body false = .error e) :
    step (bothStarted w p) (.deliver r) = rejectedCfg w p e := by
  cases w <;>
    simp [step, bothStarted, findWaiting, rejectedCfg, setStatus, herr]

theorem inv_resolvedCfg (w : Caller) (p : List Perm) (t : SessionTok) :
    Inv t (resolvedCfg w p t) := by
  cases w <;>
    exact ⟨rfl, rfl, rfl, by simp [OkSt, resolvedCfg], by simp [OkSt, resolvedCfg]⟩

theorem statusOf_setStatus_other (c : Config) (w v : Caller) (st : CStatus)
    (h : v ≠ w) : statusOf (setStatus c w st) v = statusOf c v := by
  cases w <;> cases v <;> first | rfl | exact absurd rfl h

/-- Under the settled-success invariant, every action either leaves the
configuration unchanged or is a polling tick that resolves its parked
caller with the stored token. -/
theorem step_inv_shape (t : SessionTok) (c : Config) (x : Act)
    (h : Inv t c) :
    step c x = c ∨
    ∃ who, statusOf c who = .polling ∧ x = .poll who ∧
      step c x = setStatus c who (.resolvedWith t) := by
  obtain ⟨htok, hproc, hreq, ha, hb⟩ := h
  cases x with
  | start who perms =>
      left
      cases who <;> simp only [step, statusOf] <;>
        [rcases ha with h' | h'; rcases hb with h' | h'] <;> rw [h']
  | deliver r =>
      left
      have hfw : findWaiting c = none := by
        rcases ha with h1 | h1 <;> rcases hb with h2 | h2 <;>
          simp [findWaiting, h1, h2]
      simp [step, hfw]
  | poll who =>
      cases who
      · rcases ha with h' | h'
        · exact Or.inr ⟨.A, h', rfl, by simp only [step, statusOf, htok, h']⟩
        · exact Or.inl (by simp only [step, statusOf, htok, h'])
      · rcases hb with h' | h'
        · exact Or.inr ⟨.B, h', rfl, by simp only [step, statusOf, htok, h']⟩
        · exact Or.inl (by simp only [step, statusOf, htok, h'])

theorem inv_step (t : SessionTok) (c : Config) (x : Act)
    (h : Inv t c) : Inv t (step c x) := by
  rcases step_inv_shape t c x h with heq | ⟨who, hpoll, hx, heq⟩
  · rw [heq]; exact h
  · rw [heq]
    obtain ⟨htok, hproc, hreq, ha, hb⟩ := h
    cases who
    · exact ⟨htok, hproc, hreq, Or.inr rfl, hb⟩
    · exact ⟨htok, hproc, hreq, ha, Or.inr rfl⟩

theorem inv_run (t : SessionTok) (c : Config) (l : List Act)
    (h : Inv t c) : Inv t (run l c) := by
  induction l generalizing c with
  | nil => exact h
  | cons x l ih => exact ih _ (inv_step t c x h)

theorem statusOf_step_resolved (t : SessionTok) (c : Config) (x : Act)
    (w : Caller) (h : Inv t c) (hw : statusOf c w = .resolvedWith t) :
    statusOf (step c x) w = .resolvedWith t := by
  rcases step_inv_shape t c x h with heq | ⟨who, hpoll, hx, heq⟩
  · rw [heq]; exact hw
  · rw [heq]
    by_cases hvw : w = who
    · subst hvw; rw [hw] at hpoll; simp at hpoll
    · rw [statusOf_setStatus_other _ _ _ _ hvw]; exact hw

theorem statusOf_step_poll_self (t : SessionTok) (c : Config) (w : Caller)
    (h : Inv t c) : statusOf (step c (.poll w)) w = .resolvedWith t := by
  obtain ⟨htok, hproc, hreq, ha, hb⟩ := h
  cases w
  · rcases ha with h' | h'
    · have heq : step c (.poll .A) = setStatus c .A (.resolvedWith t) := by
        simp only [step, statusOf, htok, h']
      rw [heq]; rfl
    · have heq : step c (.poll .A) = c := by
        simp only [step, statusOf, htok, h']
      rw [heq]; exact h'
  · rcases hb with h' | h'
    · have heq : step c (.poll .B) = setStatus c .B (.resolvedWith t) := by
        simp only [step, statusOf, htok, h']
      rw [heq]; rfl
    · have heq : step c (.poll .B) = c := by
        simp only [step, statusOf, htok, h']
      rw [heq]; exact h'

theorem isPollOf_eq (w : Caller) (x : Act) (h : Act.isPollOf w x = true) :
    x = .poll w := by
  cases x <;> simp [Act.isPollOf] at h
  subst h; rfl

theorem resolve_after_poll (t : SessionTok) (c : Config) (l : List Act)
    (w : Caller) (h : Inv t c)
    (hl : l.any (Act.isPollOf w) = true ∨ statusOf c w = .resolvedWith t) :
    statusOf (run l c) w = .resolvedWith t := by
  induction l generalizing c with
  | nil =>
      rcases hl with hl | hl
      · simp at hl
      · exact hl
  | cons x l ih =>
      rw [run_cons]
      have hinv := inv_step t c x h
      rcases hl with hl | hl
      · simp only [List.any_cons, Bool.or_eq_true] at hl
        rcases hl with hx | hl
        · have hx' := isPollOf_eq w x hx
          subst hx'
          exact ih _ hinv (Or.inr (statusOf_step_poll_self t c w h))
        · exact ih _ hinv (Or.inl hl)
      · exact ih _ hinv
          (Or.inr (statusOf_step_resolved t c x w h hl))

theorem step_rejectedCfg (w : Caller) (p : List Perm) (e : FFError)
    (x : Act) : step (rejectedCfg w p e) x = rejectedCfg w p e := by
  cases w <;> cases x with
    | start who perms => cases who <;> rfl
    | deliver r => rfl
    | poll who => cases who <;> rfl

theorem run_rejectedCfg (w : Caller) (p : List Perm) (e : FFError)
    (l : List Act) : run l (rejectedCfg w p e) = rejectedCfg w p e := by
  induction l with
  | nil => rfl
  | cons x l ih => rw [run_cons, step_rejectedCfg]; exact ih

/-- C1.  In every run of the two-caller machine in which both
`createSessionToken` invocations happen before the exchange response
arrives (the schedule is a deliver-free prefix containing both starts,
then the delivery, then anything in which each caller's polling tick
eventually fires), exactly one token-exchange request is issued and
both calls resolve with one and the same token. -/
theorem claim_C1_token_dedup (pre rest : List Act) (r : TokenResponse)
    (hpre : pre.all (fun x => !x.isDeliver) = true)
    (ha : pre.any (Act.isStartOf .A) = true)
    (hb : pre.any (Act.isStartOf .B) = true)
    (hok : validateResponse r.status r.body false = .ok ())
    (hpa : rest.any (Act.isPollOf .A) = true)
    (hpb : rest.any (Act.isPollOf .B) = true) :
    (run (pre ++ Act.deliver r :: rest) init).reqCount = 1 ∧
    ∃ t : SessionTok,
      (run (pre ++ Act.deliver r :: rest) init).a = .resolvedWith t ∧
      (run (pre ++ Act.deliver r :: rest) init).b = .resolvedWith t := by
  rcases phase1 pre hpre with ⟨_, hA, _⟩ | ⟨p, _, _, hB⟩ | ⟨p, _, hA, _⟩
    | ⟨w, p, hc, _, _⟩
  · rw [hA] at ha; cases ha
  · rw [hB] at hb; cases hb
  · rw [hA] at ha; cases ha
  · rw [run_append, run_cons, hc,
      step_both_deliver_ok w p r hok]
    have hinv := inv_resolvedCfg w p ⟨r.token, r.expires, p⟩
    have hrc := (inv_run _ _ rest hinv).2.2.1
    refine ⟨hrc, ⟨r.token, r.expires, p⟩, ?_, ?_⟩
    · exact resolve_after_poll _ _ rest .A hinv
        (by
          cases w
          · exact Or.inr rfl
          · exact Or.inl hpa)
    · exact resolve_after_poll _ _ rest .B hinv
        (by
          cases w
          · exact Or.inl hpb
          · exact Or.inr rfl)

/-- Witness for C1 at a concrete schedule: caller A starts, caller B
starts, the exchange succeeds, both tickers fire. -/
theorem claim_C1_token_dedup_witness :
    (([Conc.Act.start .A [], Conc.Act.start .B []].all (fun x => !x.isDeliver) = true) ∧
     ([Conc.Act.start .A [], Conc.Act.start .B []].any (Act.isStartOf .A) = true) ∧
     ([Conc.Act.start .A [], Conc.Act.start .B []].any (Act.isStartOf .B) = true) ∧
     (validateResponse 200 "" false = .ok ()) ∧
     ([Conc.Act.poll .A, Conc.Act.poll .B].any (Act.isPollOf .A) = true) ∧
     ([Conc.Act.poll .A, Conc.Act.poll .B].any (Act.isPollOf .B) = true)) ∧
    ((run ([Conc.Act.start .A [], Conc.Act.start .B []]
        ++ Act.deliver ⟨200, "", "tok", 7⟩ :: [Conc.Act.poll .A, Conc.Act.poll .B]) init).reqCount = 1 ∧
     ∃ t : SessionTok,
       (run ([Conc.Act.start .A [], Conc.Act.start .B []]
          ++ Act.deliver ⟨200, "", "tok", 7⟩ :: [Conc.Act.poll .A, Conc.Act.poll .B]) init).a = .resolvedWith t ∧
       (run ([Conc.Act.start .A [], Conc.Act.start .B []]
          ++ Act.deliver ⟨200, "", "tok", 7⟩ :: [Conc.Act.poll .A, Conc.Act.poll .B]) init).b = .resolvedWith t) :=
  ⟨⟨rfl, rfl, rfl, rfl, rfl, rfl⟩,
    claim_C1_token_dedup _ _ _ rfl rfl rfl rfl rfl rfl⟩

/-- C2, counterexample.  First run: A and B invoke concurrently, the
exchange is rejected with 401, and B's polling wait keeps ticking —
B is still parked afterwards, so the failure did not abort the
concurrent caller's in-flight wait (it neither rejected nor resolved
it).  Second run: a 429 response rejects the initiating caller with the
rate-limit error, not with `unexpectedStatus 429` as the claim's
parenthetical demands. -/
theorem claim_C2_counterexample :
    (run [Conc.Act.start .A [], Conc.Act.start .B [],
          Conc.Act.deliver ⟨401, "", "", 0⟩,
          Conc.Act.poll .B, Conc.Act.poll .B] init).b = .polling ∧
    (run [Conc.Act.start .A [], Conc.Act.start .B [],
          Conc.Act.deliver ⟨401, "", "", 0⟩,
          Conc.Act.poll .B, Conc.Act.poll .B] init).a
      = .rejected .apiKeyUnauthorized ∧
    (run [Conc.Act.start .A [], Conc.Act.start .B [],
          Conc.Act.deliver ⟨429, "x", "", 0⟩] init).a
      = .rejected .rateLimited ∧
    FFError.rateLimited ≠ .unexpectedStatus 429 "x" := by
  refine ⟨rfl, rfl, rfl, ?_⟩
  decide

/-- C2 as amended.  When the exchange request fails, the error —
`Unauthorized(ApiKey)` for 401, `RateLimited` for 429, and
`UnexpectedStatus(code, body)` for any other non-2xx status — rejects
the caller that issued the request; the concurrent caller attached to
the same in-flight acquisition is not aborted: it stays parked in its
polling wait (for the rest of the run, whatever the scheduler does),
and only one request was ever issued. -/
theorem claim_C2_error_propagation (pre rest : List Act)
    (r : TokenResponse) (e : FFError)
    (hpre : pre.all (fun x => !x.isDeliver) = true)
    (ha : pre.any (Act.isStartOf .A) = true)
    (hb : pre.any (Act.isStartOf .B) = true)
    (herr : validateResponse r.status r.body false = .error e) :
    ((run (pre ++ Act.deliver r :: rest) init).a = .rejected e ∧
       (run (pre ++ Act.deliver r :: rest) init).b = .polling ∨
     (run (pre ++ Act.deliver r :: rest) init).b = .rejected e ∧
       (run (pre ++ Act.deliver r :: rest) init).a = .polling) ∧
    (run (pre ++ Act.deliver r :: rest) init).reqCount = 1 ∧
    (r.status = 401 → e = .apiKeyUnauthorized) ∧
    (r.status = 429 → e = .rateLimited) ∧
    (r.status ≠ 401 → r.status ≠ 429 → e = .unexpectedStatus r.status r.body) := by
  rcases phase1 pre hpre with ⟨_, hA, _⟩ | ⟨p, _, _, hB⟩ | ⟨p, _, hA, _⟩
    | ⟨w, p, hc, _, _⟩
  · rw [hA] at ha; cases ha
  · rw [hB] at hb; cases hb
  · rw [hA] at ha; cases ha
  · rw [run_append, run_cons, hc,
      step_both_deliver_error w p r e herr, run_rejectedCfg]
    refine ⟨?_, ?_, ?_, ?_, ?_⟩
    · cases w
      · exact Or.inl ⟨rfl, rfl⟩
      · exact Or.inr ⟨rfl, rfl⟩
    · cases w <;> rfl
    · intro h401
      rw [h401] at herr
      simp [validateResponse] at herr
      exact herr.symm
    · intro h429
      rw [h429] at herr
      simp [validateResponse] at herr
      exact herr.symm
    · intro h401 h429
      simp only [validateResponse, if_neg h401, if_neg h429] at herr
      split at herr
      · exact (Except.error.injEq _ _).mp herr |>.symm
      · cases herr

/-- Witness for the amended C2 at a concrete schedule: a 500 response
rejects caller A with the unexpected-status error while caller B stays
parked. -/
theorem claim_C2_error_propagation_witness :
    (([Conc.Act.start .A [], Conc.Act.start .B []].all (fun x => !x.isDeliver) = true) ∧
     ([Conc.Act.start .A [], Conc.Act.start .B []].any (Act.isStartOf .A) = true) ∧
     ([Conc.Act.start .A [], Conc.Act.start .B []].any (Act.isStartOf .B) = true) ∧
     (validateResponse 500 "boom" false = .error (.unexpectedStatus 500 "boom"))) ∧
    (((run ([Conc.Act.start .A [], Conc.Act.start .B []]
         ++ Act.deliver ⟨500, "boom", "", 0⟩ :: [Conc.Act.poll .B]) init).a
        = .rejected (.unexpectedStatus 500 "boom") ∧
      (run ([Conc.Act.start .A [], Conc.Act.start .B []]
         ++ Act.deliver ⟨500, "boom", "", 0⟩ :: [Conc.Act.poll .B]) init).b = .polling ∨
      (run ([Conc.Act.start .A [], Conc.Act.start .B []]
         ++ Act.deliver ⟨500, "boom", "", 0⟩ :: [Conc.Act.poll .B]) init).b
        = .rejected (.unexpectedStatus 500 "boom") ∧
      (run ([Conc.Act.start .A [], Conc.Act.start .B []]
         ++ Act.deliver ⟨500, "boom", "", 0⟩ :: [Conc.Act.poll .B]) init).a = .polling) ∧
     (run ([Conc.Act.start .A [], Conc.Act.start .B []]
        ++ Act.deliver ⟨500, "boom", "", 0⟩ :: [Conc.Act.poll .B]) init).reqCount = 1 ∧
     ((500 : Nat) = 401 → FFError.unexpectedStatus 500 "boom" = .apiKeyUnauthorized) ∧
     ((500 : Nat) = 429 → FFError.unexpectedStatus 500 "boom" = .rateLimited) ∧
     ((500 : Nat) ≠ 401 → (500 : Nat) ≠ 429 →
       FFError.unexpectedStatus 500 "boom" = .unexpectedStatus 500 "boom")) :=
  ⟨⟨rfl, rfl, rfl, rfl⟩,
    claim_C2_error_propagation _ _ _ _ rfl rfl rfl rfl⟩

end Conc

theorem mapGet_mapSet_self (m : CacheMap) (k : Option String) (v : CVal) :
    mapGet (mapSet m k v) k = some v := by
  induction m with
  | nil => simp [mapSet, mapGet, List.lookup]
  | cons kv m ih =>
      by_cases hk : kv.1 = k
      · simp [mapSet, mapGet, hk, List.lookup]
      · simp only [mapSet, if_neg hk]
        rw [mapGet, List.lookup]
        have : (k == kv.1) = false := by
          simp [Ne.symm hk]
        rw [this]
        exact ih

theorem recMerge_nil (d : Rec) : recMerge [] d = d := by
  unfold recMerge
  simp only [List.map_nil, List.nil_append]
  induction d with
  | nil => rfl
  | cons kv d ih =>
      rw [List.filter_cons, if_pos (by rfl), ih]

theorem lookup_append_jval (f : String) (l₁ l₂ : List (String × JVal)) :
    List.lookup f (l₁ ++ l₂)
      = match List.lookup f l₁ with
        | some v => some v
        | none => List.lookup f l₂ := by
  induction l₁ with
  | nil => rfl
  | cons kv l₁ ih =>
      obtain ⟨k₁, v₁⟩ := kv
      by_cases hk : f = k₁
      · simp [List.lookup, hk]
      · simp only [List.cons_append, List.lookup,
          show (f == k₁) = false from by simp [hk]]
        exact ih

theorem lookup_filter_none (f : String) (l : List (String × JVal))
    (p : String × JVal → Bool) (h : List.lookup f l = none) :
    List.lookup f (l.filter p) = none := by
  induction l with
  | nil => rfl
  | cons kv l ih =>
      obtain ⟨k₁, v₁⟩ := kv
      by_cases hk : f = k₁
      · simp [List.lookup, hk] at h
      · simp only [List.lookup, show (f == k₁) = false from by simp [hk]] at h
        rw [List.filter_cons]
        by_cases hp : p (k₁, v₁)
        · rw [if_pos hp]
          simp only [List.lookup, show (f == k₁) = false from by simp [hk]]
          exact ih h
        · rw [if_neg hp]
          exact ih h

theorem lookup_merge_map (f : String) (l : List (String × JVal)) (B : Rec)
    (hBf : recGet B f = none) :
    List.lookup f (l.map (fun kv =>
        match recGet B kv.1 with
        | some v => (kv.1, v)
        | none => kv))
      = List.lookup f l := by
  induction l with
  | nil => rfl
  | cons kv l ih =>
      obtain ⟨k₁, v₁⟩ := kv
      simp only [List.map_cons]
      rcases hB : recGet B k₁ with _ | v
      · simp only [hB]
        by_cases hk : f = k₁
        · simp [List.lookup, hk]
        · simp only [List.lookup, show (f == k₁) = false from by simp [hk]]
          exact ih
      · simp only [hB]
        by_cases hk : f = k₁
        · rw [hk] at hBf
          rw [hBf] at hB
          cases hB
        · simp only [List.lookup, show (f == k₁) = false from by simp [hk]]
          exact ih

/-- The `transformData` wrapper only rewrites the `added` and `checked`
fields; every other field reads back unchanged. -/
theorem recGet_transformData_ne (now : Nat) (r : Rec) (f : String)
    (h1 : f ≠ "added") (h2 : f ≠ "checked") :
    recGet (transformData now r) f = recGet r f := by
  have hB0 : recGet
      ([("added", dateOf now (recGet r "added")),
        ("checked", dateOf now (recGet r "checked"))] : Rec) f = none := by
    simp [recGet, List.lookup, show (f == "added") = false from by simp [h1],
      show (f == "checked") = false from by simp [h2]]
  unfold transformData recMerge
  rw [recGet, lookup_append_jval]
  rw [lookup_merge_map f r _ hB0]
  rw [lookup_filter_none f _ _ hB0]
  rcases h : List.lookup f r with _ | v <;> simp [recGet, h]

/-- C3.  Concrete evaluation of the non-`full` bulk listing against the
two cache policies.  With `doNotCachePartial = true` the call populates
zero cache entries, as claimed.  With `doNotCachePartial = false`
(caching enabled) the claim demands one entry per returned identifier,
but the code iterates `this.cache.domains.set(domain.domain, domain)`
over the bare strings of the non-`full` response: `"a.com".domain` is
`undefined`, so both writes hit the single `undefined` key and the
cache ends with exactly one entry, keyed `undefined`, holding the last
string — the identifiers `"a.com"` and `"b.com"` are not cached at
all.  Same for the urls side. -/
theorem claim_C3_partial_cache :
    (getAllEntities true ⟨⟨true, true⟩, ⟨[], none⟩, [], []⟩
        ⟨none, none, none⟩ ⟨200, "", "tok", 7⟩
        ⟨200, "", [.strVal "a.com", .strVal "b.com"]⟩).2.2.domains = [] ∧
    (getAllEntities true ⟨⟨true, false⟩, ⟨[], none⟩, [], []⟩
        ⟨none, none, none⟩ ⟨200, "", "tok", 7⟩
        ⟨200, "", [.strVal "a.com", .strVal "b.com"]⟩).2.2.domains
      = [(none, .strVal "b.com")] ∧
    mapGet (getAllEntities true ⟨⟨true, false⟩, ⟨[], none⟩, [], []⟩
        ⟨none, none, none⟩ ⟨200, "", "tok", 7⟩
        ⟨200, "", [.strVal "a.com", .strVal "b.com"]⟩).2.2.domains
        (some "a.com") = none ∧
    (getAllEntities false ⟨⟨true, true⟩, ⟨[], none⟩, [], []⟩
        ⟨none, none, none⟩ ⟨200, "", "tok", 7⟩
        ⟨200, "", [.strVal "https://x.test/a"]⟩).2.2.urls = [] ∧
    (getAllEntities false ⟨⟨true, false⟩, ⟨[], none⟩, [], []⟩
        ⟨none, none, none⟩ ⟨200, "", "tok", 7⟩
        ⟨200, "", [.strVal "https://x.test/a"]⟩).2.2.urls
      = [(none, .strVal "https://x.test/a")] := by
  refine ⟨rfl, rfl, rfl, rfl, rfl⟩

/-- C4, counterexample.  `insertDomain` called with a non-string domain
on an instance holding no token (auth granted the Domains permission,
exchange succeeding): the `InvalidInput` error is raised — but only
after `_assertToken` ran, so the token-exchange HTTP request has
already been issued, contradicting "raised synchronously before any
I/O ... before any HTTP request (including the token exchange)". -/
theorem claim_C4_counterexample :
    (insertEntity true 0 ⟨⟨true, false⟩, ⟨[Perm.domains], none⟩, [], []⟩
        ⟨200, "", "tok", 7⟩ .undef
        (some [("category", JVal.s "phishing"), ("description", JVal.s "d")])
        ⟨200, "", []⟩).2.1 = .error (.invalidTypeString "undefined") ∧
    (insertEntity true 0 ⟨⟨true, false⟩, ⟨[Perm.domains], none⟩, [], []⟩
        ⟨200, "", "tok", 7⟩ .undef
        (some [("category", JVal.s "phishing"), ("description", JVal.s "d")])
        ⟨200, "", []⟩).1 = [Ev.tokenExchange [Perm.domains]] ∧
    ([Ev.tokenExchange [Perm.domains]] : List Ev) ≠ [] := by
  refine ⟨rfl, rfl, by decide⟩

/-- C4 as amended.  The `InvalidInput` errors are raised before the
operation's own endpoint request is ever issued, but not before all
I/O: the mutations run `_assertToken` first, so when no token is held
the token-exchange request precedes the validation error.  Concretely,
for `insertDomain` / `insertURL`: (a) with a token already held, a
non-string identifier fails with the `TypeError` and no I/O at all;
(b) with no token held (exchange succeeding, permission granted), the
same call fails with the `TypeError` after exactly the token-exchange
request; (c) with a token held, a `data` body missing `category` or
`description` fails with `MISSING_FIELD_CREATE` and no I/O; and (d)
the single-entity readers `getDomain` / `getURL` raise the `TypeError`
on a non-string identifier before any I/O and before touching the
cache. -/
theorem claim_C4_invalid_input (dk : Bool) (o : ApiOptions) (dp : List Perm)
    (t : SessionTok) (dm um : CacheMap) (tokResp : TokenResponse)
    (nowMs : Nat) (id : JSVal) (e : FFError) (data : Option Rec)
    (dd : Rec) (resp : RecResponse) (opts : GetOpts)
    (hid : assertString id = .error e)
    (hperm : (if dk then Perm.domains else Perm.urls) ∈ t.permissions)
    (hperm2 : (if dk then Perm.domains else Perm.urls) ∈ dp)
    (hexch : validateResponse tokResp.status tokResp.body false = .ok ())
    (hmiss : (recGet dd "category").isNone = true) :
    insertEntity dk nowMs ⟨o, ⟨dp, some t⟩, dm, um⟩ tokResp id data resp
      = ([], .error e, ⟨o, ⟨dp, some t⟩, dm, um⟩) ∧
    (insertEntity dk nowMs ⟨o, ⟨dp, none⟩, dm, um⟩ tokResp id data resp).1
      = [Ev.tokenExchange dp] ∧
    (insertEntity dk nowMs ⟨o, ⟨dp, none⟩, dm, um⟩ tokResp id data resp).2.1
      = .error e ∧
    insertEntity dk nowMs ⟨o, ⟨dp, some t⟩, dm, um⟩ tokResp (.str "id") (some dd) resp
      = ([], .error .missingFieldCreate, ⟨o, ⟨dp, some t⟩, dm, um⟩) ∧
    getEntity dk ⟨o, ⟨dp, some t⟩, dm, um⟩ id opts resp
      = ([], .error e, ⟨o, ⟨dp, some t⟩, dm, um⟩) := by
  refine ⟨?_, ?_, ?_, ?_, ?_⟩
  · simp [insertEntity, assertTokenStep, createSessionTokenSeq,
      checkTokenPermissions, hperm, hid]
  · simp [insertEntity, assertTokenStep, createSessionTokenSeq,
      checkTokenPermissions, hasSessionToken, hexch, hperm2, hid]
  · simp [insertEntity, assertTokenStep, createSessionTokenSeq,
      checkTokenPermissions, hasSessionToken, hexch, hperm2, hid]
  · simp [insertEntity, assertTokenStep, createSessionTokenSeq,
      checkTokenPermissions, hperm, assertString, hmiss]
  · simp [getEntity, hid]

/-- Witness for the amended C4 at concrete inputs: domain kind, a held
token with the Domains permission, the `undefined` identifier. -/
theorem claim_C4_invalid_input_witness :
    ((assertString .undef = .error (.invalidTypeString "undefined")) ∧
     ((if true then Perm.domains else Perm.urls) ∈ (⟨"tok", 7, [Perm.domains]⟩ : SessionTok).permissions) ∧
     ((if true then Perm.domains else Perm.urls) ∈ [Perm.domains]) ∧
     (validateResponse 200 "" false = .ok ()) ∧
     ((recGet ([("description", JVal.s "d")] : Rec) "category").isNone = true)) ∧
    (insertEntity true 0
        ⟨⟨true, false⟩, ⟨[Perm.domains], some ⟨"tok", 7, [Perm.domains]⟩⟩, [], []⟩
        ⟨200, "", "t2", 9⟩ .undef none ⟨200, "", []⟩
      = ([], .error (.invalidTypeString "undefined"),
          ⟨⟨true, false⟩, ⟨[Perm.domains], some ⟨"tok", 7, [Perm.domains]⟩⟩, [], []⟩) ∧
     (insertEntity true 0 ⟨⟨true, false⟩, ⟨[Perm.domains], none⟩, [], []⟩
        ⟨200, "", "t2", 9⟩ .undef none ⟨200, "", []⟩).1
       = [Ev.tokenExchange [Perm.domains]] ∧
     (insertEntity true 0 ⟨⟨true, false⟩, ⟨[Perm.domains], none⟩, [], []⟩
        ⟨200, "", "t2", 9⟩ .undef none ⟨200, "", []⟩).2.1
       = .error (.invalidTypeString "undefined") ∧
     insertEntity true 0
        ⟨⟨true, false⟩, ⟨[Perm.domains], some ⟨"tok", 7, [Perm.domains]⟩⟩, [], []⟩
        ⟨200, "", "t2", 9⟩ (.str "id") (some [("description", JVal.s "d")]) ⟨200, "", []⟩
       = ([], .error .missingFieldCreate,
           ⟨⟨true, false⟩, ⟨[Perm.domains], some ⟨"tok", 7, [Perm.domains]⟩⟩, [], []⟩) ∧
     getEntity true
        ⟨⟨true, false⟩, ⟨[Perm.domains], some ⟨"tok", 7, [Perm.domains]⟩⟩, [], []⟩
        .undef ⟨none, none⟩ ⟨200, "", []⟩
       = ([], .error (.invalidTypeString "undefined"),
           ⟨⟨true, false⟩, ⟨[Perm.domains], some ⟨"tok", 7, [Perm.domains]⟩⟩, [], []⟩)) :=
  ⟨⟨rfl, by decide, by decide, rfl, rfl⟩,
    claim_C4_invalid_input true ⟨true, false⟩ [Perm.domains] ⟨"tok", 7, [Perm.domains]⟩
      [] [] ⟨200, "", "t2", 9⟩ 0 .undef (.invalidTypeString "undefined") none
      [("description", JVal.s "d")] ⟨200, "", []⟩ ⟨none, none⟩
      rfl (by decide) (by decide) rfl rfl⟩

/-- C5.  A token issued at time `now` with `expires` such that
`expires * 1000 = now + ε` stays visible to `hasSessionToken` exactly
while the wall clock is strictly below `now + ε` — the armed
`_createExpireTimeout` nulls `_sessionToken` at that instant — and the
first `createSessionToken` call after the expiry issues a fresh
token-exchange request instead of returning the stale token. -/
theorem claim_C5_expiry (dp perms perms2 : List Perm) (r r2 : TokenResponse)
    (now eps : Nat)
    (hok : validateResponse r.status r.body false = .ok ())
    (hexp : r.expires * 1000 = now + eps) :
    (∀ u, now ≤ u →
      (hasSessionTokenT (advanceTo
          (createSessionTokenT ⟨⟨dp, none⟩, none, now⟩ perms r).2.2 u) = true
        ↔ u < now + eps)) ∧
    hasSessionTokenT (advanceTo
        (createSessionTokenT ⟨⟨dp, none⟩, none, now⟩ perms r).2.2 (now + eps)) = false ∧
    (createSessionTokenT (advanceTo
        (createSessionTokenT ⟨⟨dp, none⟩, none, now⟩ perms r).2.2 (now + eps)) perms2 r2).1
      = [Ev.tokenExchange perms2] := by
  have hs1 : (createSessionTokenT ⟨⟨dp, none⟩, none, now⟩ perms r).2.2
      = ⟨⟨dp, some ⟨r.token, r.expires, perms⟩⟩, some (now + eps), now⟩ := by
    simp [createSessionTokenT, createSessionTokenSeq, hasSessionToken, hok, hexp,
      Nat.max_eq_left (Nat.le_add_right now eps)]
  rw [hs1]
  refine ⟨?_, ?_, ?_⟩
  · intro u hu
    by_cases h : now + eps ≤ u <;>
      simp [advanceTo, h, hasSessionTokenT, hasSessionToken] <;> omega
  · simp [advanceTo, hasSessionTokenT, hasSessionToken]
  · rcases h2 : validateResponse r2.status r2.body false with e | u <;>
      simp [advanceTo, createSessionTokenT, createSessionTokenSeq,
        hasSessionToken, h2]

/-- Witness for C5 at concrete numbers: `now = 1000`, `ε = 1000`,
`expires = 2` unix seconds. -/
theorem claim_C5_expiry_witness :
    ((validateResponse 200 "" false = .ok ()) ∧
     ((⟨200, "", "tk", 2⟩ : TokenResponse).expires * 1000 = 1000 + 1000)) ∧
    ((∀ u, 1000 ≤ u →
      (hasSessionTokenT (advanceTo
          (createSessionTokenT ⟨⟨[], none⟩, none, 1000⟩ [] ⟨200, "", "tk", 2⟩).2.2 u) = true
        ↔ u < 1000 + 1000)) ∧
     hasSessionTokenT (advanceTo
        (createSessionTokenT ⟨⟨[], none⟩, none, 1000⟩ [] ⟨200, "", "tk", 2⟩).2.2
        (1000 + 1000)) = false ∧
     (createSessionTokenT (advanceTo
        (createSessionTokenT ⟨⟨[], none⟩, none, 1000⟩ [] ⟨200, "", "tk", 2⟩).2.2
        (1000 + 1000)) [Perm.urls] ⟨500, "", "", 0⟩).1
       = [Ev.tokenExchange [Perm.urls]]) :=
  ⟨⟨rfl, rfl⟩,
    claim_C5_expiry [] [] [Perm.urls] ⟨200, "", "tk", 2⟩ ⟨500, "", "", 0⟩
      1000 1000 rfl rfl⟩

/-- C7.  A client whose held session token carries exactly the
`Domains` permission: `insertURL`, `patchURL` and `deleteURL` all fail
with the `SESSION_TOKEN_NO_PERMISSION` (Forbidden) error while
emitting no I/O events at all — in particular no request to the
mutation endpoint — and the state is untouched.  Symmetrically, a
token carrying exactly `Urls` fails the three Domains mutations the
same way.  (The identifier may even be a non-string: the permission
gate fires first.) -/
theorem claim_C7_permission_gate (o : ApiOptions) (dp : List Perm)
    (dm um : CacheMap) (tv : String) (te : Nat) (tokResp : TokenResponse)
    (nowMs : Nat) (idv : JSVal) (dataC : Option Rec) (dataU : Rec)
    (respR : RecResponse) (respD : HttpResp) :
    insertEntity false nowMs ⟨o, ⟨dp, some ⟨tv, te, [Perm.domains]⟩⟩, dm, um⟩
        tokResp idv dataC respR
      = ([], .error .noPermission, ⟨o, ⟨dp, some ⟨tv, te, [Perm.domains]⟩⟩, dm, um⟩) ∧
    patchEntity false nowMs ⟨o, ⟨dp, some ⟨tv, te, [Perm.domains]⟩⟩, dm, um⟩
        tokResp idv dataU respR
      = ([], .error .noPermission, ⟨o, ⟨dp, some ⟨tv, te, [Perm.domains]⟩⟩, dm, um⟩) ∧
    deleteEntity false ⟨o, ⟨dp, some ⟨tv, te, [Perm.domains]⟩⟩, dm, um⟩
        tokResp idv respD
      = ([], .error .noPermission, ⟨o, ⟨dp, some ⟨tv, te, [Perm.domains]⟩⟩, dm, um⟩) ∧
    insertEntity true nowMs ⟨o, ⟨dp, some ⟨tv, te, [Perm.urls]⟩⟩, dm, um⟩
        tokResp idv dataC respR
      = ([], .error .noPermission, ⟨o, ⟨dp, some ⟨tv, te, [Perm.urls]⟩⟩, dm, um⟩) ∧
    patchEntity true nowMs ⟨o, ⟨dp, some ⟨tv, te, [Perm.urls]⟩⟩, dm, um⟩
        tokResp idv dataU respR
      = ([], .error .noPermission, ⟨o, ⟨dp, some ⟨tv, te, [Perm.urls]⟩⟩, dm, um⟩) ∧
    deleteEntity true ⟨o, ⟨dp, some ⟨tv, te, [Perm.urls]⟩⟩, dm, um⟩
        tokResp idv respD
      = ([], .error .noPermission, ⟨o, ⟨dp, some ⟨tv, te, [Perm.urls]⟩⟩, dm, um⟩) :=
  ⟨rfl, rfl, rfl, rfl, rfl, rfl⟩

/-- C8.  `_sessionToken` is a single nullable slot, so no two tokens
ever coexist in one `FishFishAuth`; and while a token is held,
`createSessionToken` returns it unchanged on its first line — whatever
permissions are requested and whatever the exchange would have
answered — without emitting any request and without touching the
state. -/
theorem claim_C8_single_token (dp perms : List Perm) (t : SessionTok)
    (r : TokenResponse) :
    createSessionTokenSeq ⟨dp, some t⟩ perms r = ([], .ok t, ⟨dp, some t⟩) :=
  rfl

/-- C9.  A `domain_update` (resp. `url_update`) realtime event whose
identifier is absent from the cache is applied without any error: the
existing entry defaults to the empty object, the shallow merge
`{...{}, ...data}` is the event data itself, and the cache ends up
holding exactly the processed event fields under that identifier. -/
theorem claim_C9_update_merge (nowMsg nowData : Nat) (o : ApiOptions)
    (a : AuthSt) (dm um : CacheMap) (rawD rawU : Rec) (k ku : String)
    (hcache : o.cache = true)
    (hkey : recGet rawD "domain" = some (.s k))
    (habsent : mapGet dm (some k) = none)
    (hkeyU : recGet rawU "url" = some (.s ku))
    (habsentU : mapGet um (some ku) = none) :
    handleMessage nowMsg nowData ⟨o, a, dm, um⟩ "domain_update" rawD
      = .ok ⟨o, a, mapSet dm (some k)
          (.recVal (transformData nowData (transformData nowMsg rawD))), um⟩ ∧
    mapGet (mapSet dm (some k)
        (.recVal (transformData nowData (transformData nowMsg rawD)))) (some k)
      = some (.recVal (transformData nowData (transformData nowMsg rawD))) ∧
    handleMessage nowMsg nowData ⟨o, a, dm, um⟩ "url_update" rawU
      = .ok ⟨o, a, dm, mapSet um (some ku)
          (.recVal (transformData nowData (transformData nowMsg rawU)))⟩ ∧
    mapGet (mapSet um (some ku)
        (.recVal (transformData nowData (transformData nowMsg rawU)))) (some ku)
      = some (.recVal (transformData nowData (transformData nowMsg rawU))) := by
  have hkD : recGet (transformData nowData (transformData nowMsg rawD)) "domain"
      = some (.s k) := by
    rw [recGet_transformData_ne _ _ _ (by decide) (by decide),
      recGet_transformData_ne _ _ _ (by decide) (by decide), hkey]
  have hkU : recGet (transformData nowData (transformData nowMsg rawU)) "url"
      = some (.s ku) := by
    rw [recGet_transformData_ne _ _ _ (by decide) (by decide),
      recGet_transformData_ne _ _ _ (by decide) (by decide), hkeyU]
  have habsent2 : List.lookup (some k) dm = none := habsent
  have habsentU2 : List.lookup (some ku) um = none := habsentU
  refine ⟨?_, mapGet_mapSet_self _ _ _, ?_, mapGet_mapSet_self _ _ _⟩
  · simp [handleMessage, onData, cacheAccessor, hcache, recKeyStr, hkD,
      habsent, habsent2, recMerge_nil, cvalSpread]
  · simp [handleMessage, onData, cacheAccessor, hcache, recKeyStr, hkU,
      habsentU, habsentU2, recMerge_nil, cvalSpread]

/-- Witness for C9 at a concrete event: an update for `x.test` with the
domains cache (and urls cache) empty. -/
theorem claim_C9_update_merge_witness :
    (((⟨true, false⟩ : ApiOptions).cache = true) ∧
     (recGet ([("domain", JVal.s "x.test"), ("category", JVal.s "phishing")] : Rec)
        "domain" = some (.s "x.test")) ∧
     (mapGet ([] : CacheMap) (some "x.test") = none) ∧
     (recGet ([("url", JVal.s "https://y.test/p")] : Rec) "url"
        = some (.s "https://y.test/p")) ∧
     (mapGet ([] : CacheMap) (some "https://y.test/p") = none)) ∧
    (handleMessage 10 20 ⟨⟨true, false⟩, ⟨[], none⟩, [], []⟩ "domain_update"
        [("domain", JVal.s "x.test"), ("category", JVal.s "phishing")]
      = .ok ⟨⟨true, false⟩, ⟨[], none⟩, mapSet [] (some "x.test")
          (.recVal (transformData 20 (transformData 10
            [("domain", JVal.s "x.test"), ("category", JVal.s "phishing")]))), []⟩ ∧
     mapGet (mapSet [] (some "x.test")
        (.recVal (transformData 20 (transformData 10
          [("domain", JVal.s "x.test"), ("category", JVal.s "phishing")]))))
        (some "x.test")
      = some (.recVal (transformData 20 (transformData 10
          [("domain", JVal.s "x.test"), ("category", JVal.s "phishing")]))) ∧
     handleMessage 10 20 ⟨⟨true, false⟩, ⟨[], none⟩, [], []⟩ "url_update"
        [("url", JVal.s "https://y.test/p")]
      = .ok ⟨⟨true, false⟩, ⟨[], none⟩, [], mapSet [] (some "https://y.test/p")
          (.recVal (transformData 20 (transformData 10
            [("url", JVal.s "https://y.test/p")])))⟩ ∧
     mapGet (mapSet [] (some "https://y.test/p")
        (.recVal (transformData 20 (transformData 10
          [("url", JVal.s "https://y.test/p")]))))
        (some "https://y.test/p")
      = some (.recVal (transformData 20 (transformData 10
          [("url", JVal.s "https://y.test/p")])))) :=
  ⟨⟨rfl, rfl, rfl, rfl, rfl⟩,
    claim_C9_update_merge 10 20 ⟨true, false⟩ ⟨[], none⟩ [] []
      [("domain", JVal.s "x.test"), ("category", JVal.s "phishing")]
      [("url", JVal.s "https://y.test/p")] "x.test" "https://y.test/p"
      rfl rfl rfl rfl rfl⟩

/-- C10.  On an instance constructed with `cache: false`, the instance
readers `getDomain` and `getURL` — called with any string identifier,
any options, whatever the server would answer — fail with the
`CACHE_DISABLED` error before emitting any request, because their
second step reads `this.cache`, the throwing accessor.  They never
fall back to an uncached fetch. -/
theorem claim_C10_cache_disabled_reads (dnp : Bool) (a : AuthSt)
    (dm um : CacheMap) (d u : String) (optsD optsU : GetOpts)
    (respD respU : RecResponse) :
    getEntity true ⟨⟨false, dnp⟩, a, dm, um⟩ (.str d) optsD respD
      = ([], .error .cacheDisabled, ⟨⟨false, dnp⟩, a, dm, um⟩) ∧
    getEntity false ⟨⟨false, dnp⟩, a, dm, um⟩ (.str u) optsU respU
      = ([], .error .cacheDisabled, ⟨⟨false, dnp⟩, a, dm, um⟩) :=
  ⟨rfl, rfl⟩

theorem floor_exp_of_bounds (k t : ℕ) (h1 : (t : ℝ) ≤ 2.7182818283 ^ k)
    (h2 : (2.7182818286 : ℝ) ^ k < t + 1) :
    Nat.floor (Real.exp (k : ℝ)) = t := by
  have hk : Real.exp (k : ℝ) = Real.exp 1 ^ k := by
    rw [← Real.exp_nat_mul]; norm_num
  rw [hk, Nat.floor_eq_iff (by positivity)]
  constructor
  · exact le_trans h1 (pow_le_pow_left (by norm_num) Real.exp_one_gt_d9.le k)
  · calc Real.exp 1 ^ k ≤ 2.7182818286 ^ k :=
        pow_le_pow_left (Real.exp_pos 1).le Real.exp_one_lt_d9.le k
      _ < t + 1 := h2

/-- Under the 600-second cap, the lookup table agrees with
`Math.floor(Math.exp(tries))` at every attempt count: the table holds
the exact floors below seven, and `e^n ≥ e^7 > 1096 > 600` beyond. -/
theorem backOff_matches_exp (n : ℕ) :
    min (expFloorTable n) 600 = min (Nat.floor (Real.exp (n : ℝ))) 600 := by
  rcases Nat.lt_or_ge n 7 with h | h
  · interval_cases n
    · rw [floor_exp_of_bounds 0 1 (by norm_num) (by norm_num)]; rfl
    · rw [floor_exp_of_bounds 1 2 (by norm_num) (by norm_num)]; rfl
    · rw [floor_exp_of_bounds 2 7 (by norm_num) (by norm_num)]; rfl
    · rw [floor_exp_of_bounds 3 20 (by norm_num) (by norm_num)]; rfl
    · rw [floor_exp_of_bounds 4 54 (by norm_num) (by norm_num)]; rfl
    · rw [floor_exp_of_bounds 5 148 (by norm_num) (by norm_num)]; rfl
    · rw [floor_exp_of_bounds 6 403 (by norm_num) (by norm_num)]; rfl
  · have htab : expFloorTable n = 1096 := by
      rcases n with _|_|_|_|_|_|_|m
      · omega
      · omega
      · omega
      · omega
      · omega
      · omega
      · omega
      · rfl
    have h600 : 600 ≤ Nat.floor (Real.exp (n : ℝ)) := by
      apply Nat.le_floor
      have hmono : Real.exp ((7 : ℕ) : ℝ) ≤ Real.exp (n : ℝ) :=
        Real.exp_le_exp.mpr (Nat.cast_le.mpr h)
      have h7 : (600 : ℝ) ≤ Real.exp ((7 : ℕ) : ℝ) := by
        have h7p : Real.exp ((7 : ℕ) : ℝ) = Real.exp 1 ^ 7 := by
          rw [← Real.exp_nat_mul]; norm_num
        rw [h7p]
        calc (600 : ℝ) ≤ 2.7182818283 ^ 7 := by norm_num
          _ ≤ Real.exp 1 ^ 7 :=
            pow_le_pow_left (by norm_num) Real.exp_one_gt_d9.le 7
      exact_mod_cast le_trans h7 hmono
    rw [htab, Nat.min_eq_right h600]
    decide

/-- C6.  Evaluation of `onClose` on the state the claim describes.  On
the first abnormal close (`tries = 0`) the computed backoff —
`min(floor(e^0), 600) = 1` second, the value logged and carried by the
`close` event as `attemptReconnectAfterMilliseconds` — is 1000 ms, and
the counter becomes 1 as the claim says; but the reconnect is scheduled
with a second `this.backOff()` call evaluated after the increment, so
the timer is armed with 2000 ms, not the computed 1000 ms.  The
remaining conjuncts check the parts of the claim the code does satisfy:
the backoff formula agrees with `min(floor(e^tries), 600)` seconds at
every attempt count, delays are non-decreasing and capped at 600
seconds, and a successful `open` resets the counter to zero. -/
theorem claim_C6_backoff_schedule :
    onCloseModel 0 = (1000, 1, 2000) ∧
    (1000 : Nat) ≠ 2000 ∧
    (∀ n : Nat, backOffMs n = min (Nat.floor (Real.exp (n : ℝ))) 600 * 1000) ∧
    (∀ n : Nat, backOffMs n ≤ backOffMs (n + 1)) ∧
    (∀ n : Nat, backOffMs n ≤ 600 * 1000) ∧
    onOpenModel 3 = 0 := by
  refine ⟨rfl, by decide, ?_, ?_, ?_, rfl⟩
  · intro n
    rw [backOffMs, backOff_matches_exp]
  · intro n
    have hmin : min (expFloorTable n) 600 ≤ min (expFloorTable (n + 1)) 600 := by
      rcases n with _|_|_|_|_|_|_|m
      · decide
      · decide
      · decide
      · decide
      · decide
      · decide
      · decide
      · exact Nat.le_refl _
    exact Nat.mul_le_mul_right 1000 hmin
  · intro n
    exact Nat.mul_le_mul_right 1000 (Nat.min_le_right _ _)

end FishFish
